import Mathlib

/-!
# Football League Analysis dashboard — verification of the data pipeline

Shallow embedding of `src/dashboard.py` (a pandas/streamlit dashboard).

Modelling conventions, justified against pandas/numpy semantics:

* A dataframe of season results is a `List Row` in row order.
* Boolean-mask filtering (`df[mask]`) keeps the surviving rows in order,
  so it is `List.filter`.
* `groupby('team', sort=True)` (the pandas default used on lines 131, 148,
  166, 182, 198 of the source) emits one group per distinct team, with the
  group keys in ascending (lexicographic) order; each group's rows keep
  their order from the frame being grouped.
* `Series.sort_values()` defaults to numpy's introsort
  (`kind='quicksort'`), which is *unstable* in general but runs its stable
  insertion sort on arrays of at most 15 elements.  We model the sort as a
  stable insertion sort by value: this is numpy's exact behaviour for
  per-team aggregate arrays of at most 15 groups, while for larger arrays
  only the value order — not the tie order — of the model is guaranteed by
  the code.  Theorems about tie order therefore carry an explicit
  at-most-15-teams hypothesis; theorems that hold under any permutation of
  equal values (lengths, membership, value-sortedness) need none.
  `sort_values(ascending=False)` is implemented by pandas (`nargsort`) as
  the *reversal* of the ascending argsort, so it is modelled as
  `(ascending sort).reverse`.
* Exact rational arithmetic (`ℚ`) stands in for float64 in aggregates.
  Division of nonzero by zero and 0/0, which float64 maps to ±inf and NaN
  without raising, are modelled by the carrier `Fval` below, together with
  NaN-skipping of `Series.mean` (`skipna=True`, the pandas default).
* Python exceptions in `load_data` are modelled with `Except`; the
  `try/except` wrapper is the `match` in `load_data`.
-/

namespace Football

/-- One row of the season table, with the eleven required columns of the
dashboard (`required_columns`, line 68 of the source). -/
structure Row where
  season_end_year : Int
  team : String
  position : Int
  played : Int
  won : Int
  drawn : Int
  lost : Int
  gf : Int
  ga : Int
  gd : Int
  points : Int
deriving DecidableEq

/-- The loaded table: an ordered sequence of rows. -/
abbrev Dataset := List Row

/-- The sidebar filter state: season range plus selected clubs
(`start_season`, `end_season`, `selected_clubs` in the source). -/
structure FilterSpec where
  start_season : Int
  end_season : Int
  selected_teams : List String

/-- Line 101: `df[(df['season_end_year'] >= start_season) & (df['season_end_year'] <= end_season)]`
— the year-range mask of one row. -/
def rowInRange (s : FilterSpec) (r : Row) : Bool :=
  decide (s.start_season ≤ r.season_end_year) && decide (r.season_end_year ≤ s.end_season)

/-- Lines 101–103 of the source: the range mask, then
`if selected_clubs: filtered_df = filtered_df[filtered_df['team'].isin(selected_clubs)]`.
An empty `selected_clubs` list is falsy in Python, so the team mask is skipped. -/
def filtered_df (df : Dataset) (s : FilterSpec) : Dataset :=
  let inRange := df.filter (rowInRange s)
  if s.selected_teams.isEmpty then inRange
  else inRange.filter (fun r => s.selected_teams.contains r.team)

/-- Smallest `season_end_year` occurring in the dataset (0 for an empty one);
`min(df['season_end_year'])`. -/
def minSeason (df : Dataset) : Int :=
  match df with
  | [] => 0
  | r :: rs => rs.foldl (fun m x => min m x.season_end_year) r.season_end_year

/-- Largest `season_end_year` occurring in the dataset (0 for an empty one);
`max(df['season_end_year'])`. -/
def maxSeason (df : Dataset) : Int :=
  match df with
  | [] => 0
  | r :: rs => rs.foldl (fun m x => max m x.season_end_year) r.season_end_year

/-! ## Float-valued cells: NaN / ±inf semantics of numpy division and mean -/

/-- A float64 cell value as produced by the per-row divisions of the
dashboard: an exact rational, NaN, or a signed infinity. -/
inductive Fval where
  | nan : Fval
  | ninf : Fval
  | pinf : Fval
  | val : ℚ → Fval
deriving DecidableEq

/-- IEEE-754 addition on `Fval` (as float64 does, with `inf + -inf = NaN`
and NaN absorbing). -/
def fadd : Fval → Fval → Fval
  | .nan, _ => .nan
  | _, .nan => .nan
  | .pinf, .ninf => .nan
  | .ninf, .pinf => .nan
  | .pinf, _ => .pinf
  | _, .pinf => .pinf
  | .ninf, _ => .ninf
  | _, .ninf => .ninf
  | .val p, .val q => .val (p + q)

/-- Sum of a list of float values. -/
def fsum (xs : List Fval) : Fval := xs.foldr fadd (.val 0)

/-- `Series.mean()` with pandas' default `skipna=True`: NaN entries are
dropped from both the sum and the count; the mean of an empty (or all-NaN)
series is NaN; an infinite sum divided by a positive count stays infinite. -/
def fmean (xs : List Fval) : Fval :=
  if (xs.filter (fun x => x ≠ Fval.nan)).isEmpty then .nan
  else
    match fsum (xs.filter (fun x => x ≠ Fval.nan)) with
    | .val q => .val (q / ((xs.filter (fun x => x ≠ Fval.nan)).length : ℚ))
    | f => f

/-! ## Grouping by team -/

/-- The rows of one team, in view order: one group of `groupby('team')`. -/
def teamRows (view : Dataset) (t : String) : Dataset :=
  view.filter (fun r => r.team == t)

/-- Lexicographic comparison of character sequences by Unicode code point —
the string order Python and pandas use when sorting team names. -/
def charsLe : List Char → List Char → Bool
  | [], _ => true
  | _ :: _, [] => false
  | a :: as, b :: bs =>
    if a.toNat = b.toNat then charsLe as bs
    else decide (a.toNat < b.toNat)

/-- Lexicographic string comparison by code point. -/
def strLe (a b : String) : Bool := charsLe a.data b.data

/-- The group keys of `groupby('team', sort=True)`: the distinct team names
of the view in ascending lexicographic order. -/
def sortedTeams (view : Dataset) : List String :=
  ((view.map Row.team).dedup).insertionSort (fun a b => strLe a b = true)

/-- Exact mean of a list of rationals (`sum/length`; only ever applied to
nonempty per-group lists below). -/
def meanQ (qs : List ℚ) : ℚ := qs.sum / (qs.length : ℚ)

/-! ## tab2: win percentage and goals against per game -/

/-- Line 130: `filtered_df['win_pct'] = (filtered_df['won'] / filtered_df['played']) * 100`
on one row.  numpy float division yields NaN for `0/0` and a signed
infinity for `x/0`, `x ≠ 0`, without raising. -/
def win_pct (r : Row) : Fval :=
  if r.played = 0 then
    if 0 < r.won then .pinf
    else if r.won < 0 then .ninf
    else .nan
  else .val ((r.won : ℚ) / (r.played : ℚ) * 100)

/-- Line 147: `filtered_df['ga_per_game'] = filtered_df['ga'] / filtered_df['played']`
on one row, with the same float division semantics. -/
def ga_per_game (r : Row) : Fval :=
  if r.played = 0 then
    if 0 < r.ga then .pinf
    else if r.ga < 0 then .ninf
    else .nan
  else .val ((r.ga : ℚ) / (r.played : ℚ))

/-- The per-team aggregate of line 131:
`filtered_df.groupby('team')['win_pct'].mean()` evaluated at team `t`. -/
def winPctMean (view : Dataset) (t : String) : Fval :=
  fmean ((teamRows view t).map win_pct)

/-- Sort key used by `Series.sort_values(ascending=True)` on float values:
NaN entries are placed last (`na_position='last'`, the pandas default). -/
def fvalLe (a b : Fval) : Bool :=
  match a, b with
  | .nan, .nan => true
  | .nan, _ => false
  | _, .nan => true
  | .ninf, _ => true
  | _, .ninf => false
  | .pinf, .pinf => true
  | .val _, .pinf => true
  | .pinf, .val _ => false
  | .val p, .val q => decide (p ≤ q)

/-- Line 131 in full: `filtered_df.groupby('team')['win_pct'].mean().sort_values(ascending=True).reset_index()`
— the per-team mean win percentage, ascending by value.  The insertion
sort is numpy's exact sort only for at most 15 teams; for more teams the
code guarantees the value order but not this model's tie order (no theorem
relies on it). -/
def win_pct_df (view : Dataset) : List (String × Fval) :=
  ((sortedTeams view).map (fun t => (t, winPctMean view t))).insertionSort
    (fun a b => fvalLe a.2 b.2 = true)

/-- The per-team aggregate of line 148:
`filtered_df.groupby('team')['ga_per_game'].mean()` evaluated at team `t`. -/
def gaPerGameMean (view : Dataset) (t : String) : Fval :=
  fmean ((teamRows view t).map ga_per_game)

/-- Reference definition following the spec's words for the win-percentage
average: a `played = 0` row's contribution is excluded, i.e. the average is
taken over the team's rows with `played ≠ 0` only (NaN when there are
none).  The claim compares the code's `winPctMean` against this. -/
def winPctMeanSpec (rs : Dataset) : Fval :=
  if (rs.filter (fun r => decide (r.played ≠ 0))).isEmpty then .nan
  else
    .val (meanQ ((rs.filter (fun r => decide (r.played ≠ 0))).map
      (fun r => (r.won : ℚ) / (r.played : ℚ) * 100)))

/-! ## tab3: goals for / against -/

/-- One row of `goals_df` after the `agg` of line 166:
`filtered_df.groupby('team').agg({'gf': 'sum', 'ga': 'sum'})`. -/
structure GoalsAgg where
  team : String
  gf : Int
  ga : Int
deriving DecidableEq

/-- One row of `goals_df` after line 167 added the recomputed `gd` column. -/
structure GoalsRow where
  team : String
  gf : Int
  ga : Int
  gd : Int
deriving DecidableEq

/-- Line 166: per-team sums of `gf` and `ga` over the filtered view. -/
def goals_agg (view : Dataset) : List GoalsAgg :=
  (sortedTeams view).map (fun t =>
    { team := t
      gf := ((teamRows view t).map Row.gf).sum
      ga := ((teamRows view t).map Row.ga).sum })

/-- Line 167: `goals_df['gd'] = goals_df['gf'] - goals_df['ga']` — the goal
difference column is recomputed from the aggregated sums; the input `gd`
column plays no part. -/
def goals_df (view : Dataset) : List GoalsRow :=
  (goals_agg view).map (fun g => { team := g.team, gf := g.gf, ga := g.ga, gd := g.gf - g.ga })

/-! ## tab4: top-10 rankings -/

/-- The table behind line 182 before sorting:
`filtered_df.groupby('team')['position'].mean()` — exact per-team mean of
the `position` column, keyed by the sorted group keys. -/
def avg_pos_table (view : Dataset) : List (String × ℚ) :=
  (sortedTeams view).map (fun t =>
    (t, meanQ ((teamRows view t).map (fun r => (r.position : ℚ)))))

/-- Line 182: `filtered_df.groupby('team')['position'].mean().sort_values().head(n).reset_index()`
(the source uses `n = 10`).  The insertion sort coincides with numpy's
introsort whenever the view has at most 15 teams; beyond that the code
guarantees the value order but not this model's tie order, so tie-order
theorems carry that bound as a hypothesis. -/
def avg_pos (view : Dataset) (n : Nat) : List (String × ℚ) :=
  ((avg_pos_table view).insertionSort (fun a b => a.2 ≤ b.2)).take n

/-- The table behind line 198 before sorting:
`filtered_df.groupby('team')['points'].mean()`. -/
def avg_pts_table (view : Dataset) : List (String × ℚ) :=
  (sortedTeams view).map (fun t =>
    (t, meanQ ((teamRows view t).map (fun r => (r.points : ℚ)))))

/-- Line 198: `filtered_df.groupby('team')['points'].mean().sort_values(ascending=False).head(n).reset_index()`.
pandas' `nargsort` realises a descending sort as the reversal of the
ascending argsort.  As with `avg_pos`, the ascending sort is numpy's exact
(insertion) sort only for at most 15 teams; tie-order theorems carry that
bound as a hypothesis. -/
def avg_pts (view : Dataset) (n : Nat) : List (String × ℚ) :=
  (((avg_pts_table view).insertionSort (fun a b => a.2 ≤ b.2)).reverse).take n

/-! ## DatasetLoader: `load_data` (lines 30–48) and column validation (lines 68–72) -/

/-- Line 42: `df.columns.str.strip().str.lower()` applied to one name. -/
def normalizeName (s : String) : String := s.trim.toLower

/-- A cell of the raw `season_end_year` column as parsed by pandas: either
already numeric or a string needing coercion. -/
inductive Cell where
  | intCell : Int → Cell
  | strCell : String → Cell
deriving DecidableEq

/-- `int(...)` coercion of one cell; `none` models the `ValueError` raised
by a non-numeric string. -/
def cellToInt : Cell → Option Int
  | .intCell n => some n
  | .strCell s => s.toInt?

/-- A parsed table as returned by `pd.read_csv` / `pd.read_excel`: its
column names and the raw `season_end_year` column (the only column
`load_data` transforms). -/
structure RawTable where
  cols : List String
  seasonRaw : List Cell
deriving DecidableEq

/-- Line 44: `df['season_end_year'].astype(int)` — fails (raises) if any
cell is non-numeric. -/
def coerceSeason (cells : List Cell) : Except String (List Cell) :=
  match cells.mapM (fun c => (cellToInt c).map Cell.intCell) with
  | some cs => .ok cs
  | none => .error "invalid literal for int"

/-- Lines 42–45: normalize column names, and if a `season_end_year` column
is present coerce it to integers. -/
def finishLoad (t : RawTable) : Except String RawTable :=
  let cols := t.cols.map normalizeName
  if cols.contains "season_end_year" then
    match coerceSeason t.seasonRaw with
    | .ok cs => .ok { cols := cols, seasonRaw := cs }
    | .error e => .error e
  else .ok { cols := cols, seasonRaw := t.seasonRaw }

/-- The format tag determined by the file-name suffix tests of lines 33–39
(`.csv`, `.xlsx`/`.xls`, `.txt`, or anything else). -/
inductive FileKind where
  | csv : FileKind
  | excel : FileKind
  | txt : FileKind
  | other : FileKind
deriving DecidableEq

/-- The inputs `load_data` reacts to: the format tag selected by the file
suffix and the outcome of each pandas parser on this source
(`Except.error` models the parser raising). -/
structure LoadInput where
  kind : FileKind
  parseCsv : Except String RawTable
  parseExcel : Except String RawTable
  parseTxt : Except String RawTable

/-- The body of the `try:` block of lines 32–45.  `Except.error` models an
uncaught Python exception propagating out of the body; `Except.ok none`
models the unsupported-format branch (lines 40–41), which reports an error
and returns `None` without raising. -/
def load_body (inp : LoadInput) : Except String (Option RawTable) :=
  match inp.kind with
  | .csv => inp.parseCsv.bind (fun t => (finishLoad t).map some)
  | .excel => inp.parseExcel.bind (fun t => (finishLoad t).map some)
  | .txt => inp.parseTxt.bind (fun t => (finishLoad t).map some)
  | .other => .ok none

/-- Lines 30–48 in full: the `try/except Exception` wrapper around
`load_body`.  Result: the returned dataframe (if any) together with the
error message shown by `st.error` (if any). -/
def load_data (inp : LoadInput) : Option RawTable × Option String :=
  match load_body inp with
  | .ok (some t) => (some t, none)
  | .ok none => (none, some "Unsupported file format. Please upload a CSV, Excel, or TXT file.")
  | .error e => (none, some ("Error loading file: " ++ e))

/-- Line 68 of the source. -/
def required_columns : List String :=
  ["season_end_year", "team", "position", "played", "won", "drawn", "lost",
   "gf", "ga", "gd", "points"]

/-- Line 69: `[col for col in required_columns if col not in df.columns]`. -/
def missing_cols (cols : List String) : List String :=
  required_columns.filter (fun c => !(cols.contains c))

/-- Outcome of the column validation of lines 70–72. -/
inductive ValidationResult where
  | ok : ValidationResult
  | missingColumnsError : List String → ValidationResult
deriving DecidableEq

/-- Lines 70–72: `if missing_cols: st.error(... ', '.join(missing_cols)); st.stop()` —
report every missing column and halt, else proceed. -/
def validateColumns (cols : List String) : ValidationResult :=
  if (missing_cols cols).isEmpty then .ok
  else .missingColumnsError (missing_cols cols)

/-! ## Frame effects: the in-place column assignments of lines 130 and 147 -/

/-- A dataframe as a stateful object: its column names, its rows, and the
extra float columns added after filtering.  `filtered_df` starts with the
base columns and no extras. -/
structure ViewFrame where
  cols : List String
  rows : Dataset
  extra : List (String × List Fval)
deriving DecidableEq

/-- pandas column assignment `vf[c] = vals`: overwrites the column if it
exists, otherwise appends it as the last column. -/
def assignColumn (vf : ViewFrame) (c : String) (vals : List Fval) : ViewFrame :=
  { cols := if vf.cols.contains c then vf.cols else vf.cols ++ [c]
    rows := vf.rows
    extra :=
      if (vf.extra.map Prod.fst).contains c then
        vf.extra.map (fun p => if p.1 == c then (c, vals) else p)
      else vf.extra ++ [(c, vals)] }

/-- Lines 130–131 as a state transition: assign the `win_pct` column to the
filtered frame in place, then compute the per-team table from it (the
stored column holds exactly `win_pct` of each row, so the table equals
`win_pct_df` of the frame's rows). -/
def winPctStep (vf : ViewFrame) : List (String × Fval) × ViewFrame :=
  let vf2 := assignColumn vf "win_pct" (vf.rows.map win_pct)
  (win_pct_df vf2.rows, vf2)

/-- Lines 147–148 as a state transition: assign the `ga_per_game` column in
place, then compute the per-team table. -/
def gaPerGameStep (vf : ViewFrame) : List (String × Fval) × ViewFrame :=
  let vf2 := assignColumn vf "ga_per_game" (vf.rows.map ga_per_game)
  (((sortedTeams vf2.rows).map (fun t => (t, gaPerGameMean vf2.rows t))).insertionSort
      (fun a b => fvalLe a.2 b.2 = true),
   vf2)

/-- The by-value comparison used to model `sort_values` on exact rationals
is total. -/
instance : IsTotal (String × ℚ) (fun a b => a.2 ≤ b.2) :=
  ⟨fun a b => le_total a.2 b.2⟩

/-- The by-value comparison used to model `sort_values` on exact rationals
is transitive. -/
instance : IsTrans (String × ℚ) (fun a b => a.2 ≤ b.2) :=
  ⟨fun _ _ _ h1 h2 => le_trans h1 h2⟩

/-! ## Sample data used by concrete witnesses and counterexamples -/

/-- A sample season row. -/
def rowA2020 : Row :=
  { season_end_year := 2020, team := "Arsenal", position := 1, played := 38, won := 26,
    drawn := 9, lost := 3, gf := 72, ga := 29, gd := 43, points := 87 }

/-- A sample season row. -/
def rowB2021 : Row :=
  { season_end_year := 2021, team := "Burnley", position := 17, played := 38, won := 10,
    drawn := 9, lost := 19, gf := 33, ga := 55, gd := -22, points := 39 }

/-- A row with `played = 0` and `won = 0` (an unplayed season). -/
def rowZeroPlayed : Row :=
  { season_end_year := 2023, team := "Arsenal", position := 1, played := 0, won := 0,
    drawn := 0, lost := 0, gf := 0, ga := 0, gd := 0, points := 0 }

/-- A malformed row with `played = 0` but `won = 1` (violates the assumed
invariant `played = won + drawn + lost`). -/
def rowZeroPlayedWon : Row :=
  { season_end_year := 2023, team := "Arsenal", position := 1, played := 0, won := 1,
    drawn := 0, lost := 0, gf := 0, ga := 0, gd := 0, points := 0 }

/-- Tie row: team "B", position 2, points 40. -/
def rowTieB : Row :=
  { season_end_year := 2023, team := "B", position := 2, played := 38, won := 10,
    drawn := 10, lost := 18, gf := 40, ga := 50, gd := -10, points := 40 }

/-- Tie row: team "A", same position and points as `rowTieB`. -/
def rowTieA : Row :=
  { season_end_year := 2024, team := "A", position := 2, played := 38, won := 10,
    drawn := 10, lost := 18, gf := 40, ga := 50, gd := -10, points := 40 }

/-- A two-row sample dataset. -/
def dfSample : Dataset := [rowA2020, rowB2021]

/-- A filter spec covering `dfSample` with no team filter. -/
def specSample : FilterSpec :=
  { start_season := 2020, end_season := 2025, selected_teams := [] }

/-- A freshly filtered frame over `dfSample`: the eleven base columns, no
extra columns yet. -/
def vfSample : ViewFrame :=
  { cols := required_columns, rows := dfSample, extra := [] }

/-! # Theorems -/

/-! ## Order properties of the code-point string comparison -/

/-- Helper: `charsLe` is total. -/
theorem charsLe_total : ∀ as bs : List Char, charsLe as bs = true ∨ charsLe bs as = true := by
  intro as
  induction as with
  | nil => intro bs; left; rfl
  | cons a as ih =>
    intro bs
    cases bs with
    | nil => right; rfl
    | cons b bs =>
      by_cases h : a.toNat = b.toNat
      · rcases ih bs with h1 | h1
        · left; simp [charsLe, h, h1]
        · right; simp [charsLe, h.symm, h1]
      · rcases Nat.lt_or_ge a.toNat b.toNat with hlt | hge
        · left; simp [charsLe, h, hlt]
        · have hblt : b.toNat < a.toNat :=
            lt_of_le_of_ne hge (fun he => h he.symm)
          have hne : ¬ (b.toNat = a.toNat) := fun he => h he.symm
          right; simp [charsLe, hne, hblt]

/-- Helper: `charsLe` is transitive. -/
theorem charsLe_trans :
    ∀ as bs cs : List Char,
      charsLe as bs = true → charsLe bs cs = true → charsLe as cs = true := by
  intro as
  induction as with
  | nil => intro bs cs _ _; rfl
  | cons a as ih =>
    intro bs cs h1 h2
    cases bs with
    | nil => simp [charsLe] at h1
    | cons b bs =>
      cases cs with
      | nil => simp [charsLe] at h2
      | cons c cs =>
        by_cases hab : a.toNat = b.toNat
        · by_cases hbc : b.toNat = c.toNat
          · have hac : a.toNat = c.toNat := hab.trans hbc
            simp only [charsLe, if_pos hab] at h1
            simp only [charsLe, if_pos hbc] at h2
            simp only [charsLe, if_pos hac]
            exact ih bs cs h1 h2
          · simp only [charsLe, if_neg hbc, decide_eq_true_eq] at h2
            have hac : a.toNat < c.toNat := hab ▸ h2
            simp [charsLe, Nat.ne_of_lt hac, hac]
        · simp only [charsLe, if_neg hab, decide_eq_true_eq] at h1
          by_cases hbc : b.toNat = c.toNat
          · have hac : a.toNat < c.toNat := hbc ▸ h1
            simp [charsLe, Nat.ne_of_lt hac, hac]
          · simp only [charsLe, if_neg hbc, decide_eq_true_eq] at h2
            have hac := Nat.lt_trans h1 h2
            simp [charsLe, Nat.ne_of_lt hac, hac]

/-- The code-point string comparison is total. -/
instance : IsTotal String (fun a b => strLe a b = true) :=
  ⟨fun a b => charsLe_total a.data b.data⟩

/-- The code-point string comparison is transitive. -/
instance : IsTrans String (fun a b => strLe a b = true) :=
  ⟨fun a b c => charsLe_trans a.data b.data c.data⟩

/-! ## Filtering: soundness, order preservation, round trip -/

/-- Helper: the filter output is a subsequence of the input (pandas boolean
masking keeps surviving rows in order, fabricating and duplicating none). -/
theorem filtered_df_sublist (df : Dataset) (s : FilterSpec) :
    List.Sublist (filtered_df df s) df := by
  unfold filtered_df
  split
  · exact List.filter_sublist df
  · exact List.Sublist.trans (List.filter_sublist _) (List.filter_sublist _)

/-- Helper: every surviving row satisfies the range predicate and, when a
team filter is active, the team-membership predicate. -/
theorem mem_filtered_df {df : Dataset} {s : FilterSpec} {r : Row}
    (hr : r ∈ filtered_df df s) :
    s.start_season ≤ r.season_end_year ∧ r.season_end_year ≤ s.end_season ∧
      (s.selected_teams = [] ∨ r.team ∈ s.selected_teams) := by
  unfold filtered_df at hr
  split at hr
  case isTrue he =>
    rw [List.mem_filter] at hr
    have hp := hr.2
    unfold rowInRange at hp
    simp only [Bool.and_eq_true, decide_eq_true_eq] at hp
    exact ⟨hp.1, hp.2, Or.inl (List.isEmpty_iff.mp he)⟩
  case isFalse he =>
    rw [List.mem_filter] at hr
    obtain ⟨h1, ht⟩ := hr
    rw [List.mem_filter] at h1
    have hp := h1.2
    unfold rowInRange at hp
    simp only [Bool.and_eq_true, decide_eq_true_eq] at hp
    refine ⟨hp.1, hp.2, Or.inr ?_⟩
    simpa using ht

/-- C1: for every dataset and every FilterSpec with
`start_season ≤ end_season`, every output row of the filter satisfies
`start_season ≤ season_end_year ≤ end_season` and (`selected_teams` is empty
or `team ∈ selected_teams`); the output is a subsequence of the input (no
row fabricated or duplicated); and an empty `selected_teams` disables the
team filter entirely rather than selecting no teams. -/
theorem c1_filter_sound (df : Dataset) (s : FilterSpec)
    (h : s.start_season ≤ s.end_season) :
    List.Sublist (filtered_df df s) df ∧
      (∀ r ∈ filtered_df df s,
        s.start_season ≤ r.season_end_year ∧ r.season_end_year ≤ s.end_season ∧
          (s.selected_teams = [] ∨ r.team ∈ s.selected_teams)) ∧
      (s.selected_teams = [] → filtered_df df s = df.filter (rowInRange s)) := by
  refine ⟨filtered_df_sublist df s, fun r hr => mem_filtered_df hr, fun he => ?_⟩
  unfold filtered_df
  rw [if_pos (by simp [he])]

/-- Witness for C1 at a concrete dataset and filter spec. -/
theorem c1_filter_sound_witness :
    specSample.start_season ≤ specSample.end_season ∧
      (List.Sublist (filtered_df dfSample specSample) dfSample ∧
        (∀ r ∈ filtered_df dfSample specSample,
          specSample.start_season ≤ r.season_end_year ∧
            r.season_end_year ≤ specSample.end_season ∧
            (specSample.selected_teams = [] ∨ r.team ∈ specSample.selected_teams)) ∧
        (specSample.selected_teams = [] →
          filtered_df dfSample specSample = dfSample.filter (rowInRange specSample))) :=
  ⟨by decide, c1_filter_sound dfSample specSample (by decide)⟩

/-- C10: for every dataset and valid FilterSpec the filter output is an
order-preserving subsequence of the input (`List.Sublist`): any two rows
that both survive keep their relative order from the input dataset. -/
theorem c10_filter_subsequence (df : Dataset) (s : FilterSpec)
    (h : s.start_season ≤ s.end_season) :
    List.Sublist (filtered_df df s) df :=
  filtered_df_sublist df s

/-- Witness for C10 at a concrete dataset and filter spec. -/
theorem c10_filter_subsequence_witness :
    specSample.start_season ≤ specSample.end_season ∧
      List.Sublist (filtered_df dfSample specSample) dfSample :=
  ⟨by decide, c10_filter_subsequence dfSample specSample (by decide)⟩

/-- Helper: a left fold of `min` over season years is bounded by its
initial value. -/
theorem foldl_min_le_init (l : Dataset) :
    ∀ a : Int, l.foldl (fun m x => min m x.season_end_year) a ≤ a := by
  induction l with
  | nil => intro a; simp
  | cons r rs ih => intro a; exact le_trans (ih _) (min_le_left _ _)

/-- Helper: a left fold of `min` over season years is bounded by every
member's season year. -/
theorem foldl_min_le_mem (l : Dataset) :
    ∀ (a : Int) (r : Row), r ∈ l →
      l.foldl (fun m x => min m x.season_end_year) a ≤ r.season_end_year := by
  induction l with
  | nil => intro a r hmem; cases hmem
  | cons x xs ih =>
    intro a r hmem
    rcases List.mem_cons.mp hmem with hx | hxs
    · subst hx
      exact le_trans (foldl_min_le_init xs _) (min_le_right _ _)
    · exact ih _ r hxs

/-- Helper: a left fold of `max` over season years dominates its initial
value. -/
theorem le_foldl_max_init (l : Dataset) :
    ∀ a : Int, a ≤ l.foldl (fun m x => max m x.season_end_year) a := by
  induction l with
  | nil => intro a; simp
  | cons r rs ih => intro a; exact le_trans (le_max_left _ _) (ih _)

/-- Helper: a left fold of `max` over season years dominates every member's
season year. -/
theorem le_foldl_max_mem (l : Dataset) :
    ∀ (a : Int) (r : Row), r ∈ l →
      r.season_end_year ≤ l.foldl (fun m x => max m x.season_end_year) a := by
  induction l with
  | nil => intro a r hmem; cases hmem
  | cons x xs ih =>
    intro a r hmem
    rcases List.mem_cons.mp hmem with hx | hxs
    · subst hx
      exact le_trans (le_max_right _ _) (le_foldl_max_init xs _)
    · exact ih _ r hxs

/-- Helper: `minSeason` bounds every row's season year from below. -/
theorem minSeason_le {df : Dataset} {r : Row} (hr : r ∈ df) :
    minSeason df ≤ r.season_end_year := by
  match df with
  | [] => cases hr
  | x :: xs =>
    rcases List.mem_cons.mp hr with hx | hxs
    · subst hx
      exact foldl_min_le_init xs _
    · exact foldl_min_le_mem xs _ r hxs

/-- Helper: `maxSeason` bounds every row's season year from above. -/
theorem le_maxSeason {df : Dataset} {r : Row} (hr : r ∈ df) :
    r.season_end_year ≤ maxSeason df := by
  match df with
  | [] => cases hr
  | x :: xs =>
    rcases List.mem_cons.mp hr with hx | hxs
    · subst hx
      exact le_foldl_max_init xs _
    · exact le_foldl_max_mem xs _ r hxs

/-- C8: filtering a non-empty dataset with the full season range
(`min(season)` to `max(season)`) and an empty team set reproduces the
dataset exactly — same rows, same order, none lost, added or duplicated. -/
theorem c8_full_range_roundtrip (df : Dataset) (h : df ≠ []) :
    filtered_df df
        { start_season := minSeason df, end_season := maxSeason df,
          selected_teams := [] } = df := by
  unfold filtered_df
  rw [if_pos (by simp)]
  apply List.filter_eq_self.mpr
  intro r hr
  unfold rowInRange
  simp only [Bool.and_eq_true, decide_eq_true_eq]
  exact ⟨minSeason_le hr, le_maxSeason hr⟩

/-- Witness for C8 at a concrete two-row dataset. -/
theorem c8_full_range_roundtrip_witness :
    dfSample ≠ [] ∧
      filtered_df dfSample
          { start_season := minSeason dfSample, end_season := maxSeason dfSample,
            selected_teams := [] } = dfSample :=
  ⟨by decide, c8_full_range_roundtrip dfSample (by decide)⟩

/-! ## Goals table: recomputed goal difference (C5) -/

/-- Helper: rewriting the `gd` field of every row leaves each team's group
unchanged except for that field. -/
theorem teamRows_map_gd (view : Dataset) (g : Row → Int) (t : String) :
    teamRows (view.map (fun r => { r with gd := g r })) t
      = (teamRows view t).map (fun r => { r with gd := g r }) := by
  unfold teamRows
  rw [List.filter_map]
  congr 1

/-- Helper: rewriting the `gd` field of every row does not change the group
keys. -/
theorem sortedTeams_map_gd (view : Dataset) (g : Row → Int) :
    sortedTeams (view.map (fun r => { r with gd := g r })) = sortedTeams view := by
  unfold sortedTeams
  rw [List.map_map]
  rfl

/-- Helper: the aggregated sums of line 166 ignore the input `gd` column. -/
theorem goals_agg_map_gd (view : Dataset) (g : Row → Int) :
    goals_agg (view.map (fun r => { r with gd := g r })) = goals_agg view := by
  unfold goals_agg
  rw [sortedTeams_map_gd]
  apply List.map_congr_left
  intro t _
  rw [teamRows_map_gd]
  simp only [List.map_map]
  rfl

/-- C5: every entry of `goals_df` satisfies `gd_total = gf_total - ga_total`
exactly, and the input `gd` column is never used: rewriting `gd` arbitrarily
in every input row leaves `goals_df` unchanged. -/
theorem c5_goals_df_gd (view : Dataset) (g : Row → Int) :
    (∀ e ∈ goals_df view, e.gd = e.gf - e.ga) ∧
      goals_df (view.map (fun r => { r with gd := g r })) = goals_df view := by
  constructor
  · intro e he
    unfold goals_df at he
    rw [List.mem_map] at he
    obtain ⟨a, _, rfl⟩ := he
    rfl
  · unfold goals_df
    rw [goals_agg_map_gd]

/-- Witness for C5 at a concrete dataset and `gd`-rewriting function. -/
theorem c5_goals_df_gd_witness :
    (∀ e ∈ goals_df dfSample, e.gd = e.gf - e.ga) ∧
      goals_df (dfSample.map (fun r => { r with gd := (fun _ => (999 : Int)) r }))
        = goals_df dfSample :=
  c5_goals_df_gd dfSample (fun _ => 999)

/-! ## Top-10 best average position: shape, soundness, ordering (C6) -/

/-- C6: `avg_pos view 10` has at most 10 entries; each entry pairs a team
with the exact mean of that team's `position` values in the view; the
entries are sorted ascending by average position; and the output is empty
iff the view is empty. -/
theorem c6_avg_pos_shape (view : Dataset) :
    (avg_pos view 10).length ≤ 10 ∧
      (∀ p ∈ avg_pos view 10,
        p.2 = meanQ ((teamRows view p.1).map (fun r => (r.position : ℚ)))) ∧
      List.Sorted (fun a b => a.2 ≤ b.2) (avg_pos view 10) ∧
      (avg_pos view 10 = [] ↔ view = []) := by
  refine ⟨?_, ?_, ?_, ?_⟩
  · exact List.length_take_le 10 _
  · intro p hp
    have hp2 : p ∈ (avg_pos_table view).insertionSort (fun a b => a.2 ≤ b.2) :=
      (List.take_sublist 10 _).subset hp
    rw [List.mem_insertionSort] at hp2
    unfold avg_pos_table at hp2
    rw [List.mem_map] at hp2
    obtain ⟨t, _, rfl⟩ := hp2
    rfl
  · exact List.Pairwise.sublist (List.take_sublist 10 _) (List.sorted_insertionSort _ _)
  · constructor
    · intro h
      rcases List.take_eq_nil_iff.mp h with h10 | hsorted
      · cases h10
      · have hlen := congrArg List.length hsorted
        rw [List.length_insertionSort] at hlen
        unfold avg_pos_table at hlen
        rw [List.length_map] at hlen
        unfold sortedTeams at hlen
        rw [List.length_insertionSort] at hlen
        have hdedup := List.length_eq_zero.mp hlen
        have hmap := (List.dedup_eq_nil _).mp hdedup
        exact List.map_eq_nil_iff.mp hmap
    · intro h
      subst h
      rfl

/-- Witness for C6 at a concrete dataset. -/
theorem c6_avg_pos_shape_witness :
    (avg_pos dfSample 10).length ≤ 10 ∧
      (∀ p ∈ avg_pos dfSample 10,
        p.2 = meanQ ((teamRows dfSample p.1).map (fun r => (r.position : ℚ)))) ∧
      List.Sorted (fun a b => a.2 ≤ b.2) (avg_pos dfSample 10) ∧
      (avg_pos dfSample 10 = [] ↔ dfSample = []) :=
  c6_avg_pos_shape dfSample

/-! ## Column validation lists every missing column (C7) -/

/-- C7: for any (normalized) column list, if any required column is absent
then validation fails with `missingColumnsError` whose report contains
every absent required column; the report contains only absent required
columns; and validation succeeds iff all required columns are present. -/
theorem c7_missing_columns_complete (cols : List String) :
    (∀ c ∈ required_columns, c ∉ cols →
        validateColumns cols = .missingColumnsError (missing_cols cols) ∧
          c ∈ missing_cols cols) ∧
      (∀ c ∈ missing_cols cols, c ∈ required_columns ∧ c ∉ cols) ∧
      (validateColumns cols = .ok ↔ ∀ c ∈ required_columns, c ∈ cols) := by
  refine ⟨?_, ?_, ?_⟩
  · intro c hc hnc
    have hmem : c ∈ missing_cols cols := by
      unfold missing_cols
      rw [List.mem_filter]
      exact ⟨hc, by simpa using hnc⟩
    have hne : ¬ ((missing_cols cols).isEmpty = true) := by
      intro hemp
      rw [List.isEmpty_iff] at hemp
      rw [hemp] at hmem
      cases hmem
    refine ⟨?_, hmem⟩
    unfold validateColumns
    rw [if_neg hne]
  · intro c hcm
    unfold missing_cols at hcm
    rw [List.mem_filter] at hcm
    exact ⟨hcm.1, by simpa using hcm.2⟩
  · unfold validateColumns
    constructor
    · intro hok c hc
      by_cases hmem : (missing_cols cols).isEmpty = true
      · rw [List.isEmpty_iff] at hmem
        by_contra hnc
        have hcm : c ∈ missing_cols cols := by
          unfold missing_cols
          rw [List.mem_filter]
          exact ⟨hc, by simpa using hnc⟩
        rw [hmem] at hcm
        cases hcm
      · rw [if_neg hmem] at hok
        cases hok
    · intro hall
      rw [if_pos ?_]
      rw [List.isEmpty_iff]
      unfold missing_cols
      rw [List.filter_eq_nil_iff]
      intro c hc
      simp [hall c hc]

/-- Witness for C7: a table exposing only a `team` column is reported as
missing `points` (among the other nine absent columns). -/
theorem c7_missing_columns_complete_witness :
    validateColumns ["team"] = .missingColumnsError (missing_cols ["team"]) ∧
      "points" ∈ missing_cols ["team"] :=
  (c7_missing_columns_complete ["team"]).1 "points" (by decide) (by decide)

/-! ## Loader error containment (C9) -/

/-- C9: `load_data` never lets an exception out: exactly one of a dataframe
or an error message is produced, and every exception raised inside the
`try` body is turned into the `st.error` report with no dataframe. -/
theorem c9_load_data_total (inp : LoadInput) :
    ((load_data inp).2 = none ↔ ∃ t, (load_data inp).1 = some t) ∧
      (∀ e, load_body inp = .error e →
        load_data inp = (none, some ("Error loading file: " ++ e))) := by
  constructor
  · cases hb : load_body inp with
    | ok o => cases o <;> simp [load_data, hb]
    | error e => simp [load_data, hb]
  · intro e he
    unfold load_data
    rw [he]

/-- Witness for C9: a CSV source on which the parser raises. -/
theorem c9_load_data_total_witness :
    load_data
        { kind := .csv, parseCsv := .error "boom",
          parseExcel := .error "nope", parseTxt := .error "nope" }
      = (none, some ("Error loading file: " ++ "boom")) :=
  (c9_load_data_total _).2 "boom" (by rfl)

/-! ## Win percentage on zero-played rows (C2) -/

/-- Helper: summing a list of finite float values is exact rational
summation. -/
theorem fsum_map_val (qs : List ℚ) : fsum (qs.map Fval.val) = Fval.val qs.sum := by
  induction qs with
  | nil => rfl
  | cons q l ih =>
    show fadd (Fval.val q) (fsum (l.map Fval.val)) = Fval.val (q :: l).sum
    rw [ih]
    simp [fadd]

/-- Helper: when every `played = 0` row also has `won = 0`, the NaN filter
inside the mean drops exactly the `played = 0` rows, and every surviving
row contributes its finite `won/played*100`. -/
theorem win_pct_filter_eq (rs : Dataset) (h : ∀ r ∈ rs, r.played = 0 → r.won = 0) :
    (rs.map win_pct).filter (fun x => decide (x ≠ Fval.nan))
      = (rs.filter (fun r => decide (r.played ≠ 0))).map
          (fun r => Fval.val ((r.won : ℚ) / (r.played : ℚ) * 100)) := by
  induction rs with
  | nil => rfl
  | cons r l ih =>
    have hl : ∀ x ∈ l, x.played = 0 → x.won = 0 :=
      fun x hx => h x (List.mem_cons_of_mem _ hx)
    by_cases hp : r.played = 0
    · have hw : r.won = 0 := h r (List.mem_cons_self _ _) hp
      have hnan : win_pct r = Fval.nan := by
        unfold win_pct
        rw [if_pos hp, if_neg (by omega), if_neg (by omega)]
      simp [hnan, hp]
      simpa using ih hl
    · have hval : win_pct r = Fval.val ((r.won : ℚ) / (r.played : ℚ) * 100) := by
        unfold win_pct
        rw [if_neg hp]
      simp [hval, hp]
      simpa using ih hl

/-- Helper: the NaN-skipping mean ignores a pre-filtering of the NaN
entries. -/
theorem fmean_filter_nan (xs : List Fval) :
    fmean (xs.filter (fun x => decide (x ≠ Fval.nan))) = fmean xs := by
  unfold fmean
  rw [List.filter_filter]
  simp only [Bool.and_self]

/-- Helper: the NaN-skipping mean of finite values is the exact rational
mean (NaN on an empty list). -/
theorem fmean_map_val (qs : List ℚ) :
    fmean (qs.map Fval.val)
      = if qs.isEmpty then Fval.nan else Fval.val (qs.sum / (qs.length : ℚ)) := by
  have hfil : (qs.map Fval.val).filter (fun x => decide (x ≠ Fval.nan)) = qs.map Fval.val := by
    apply List.filter_eq_self.mpr
    intro a ha
    rw [List.mem_map] at ha
    obtain ⟨q, _, rfl⟩ := ha
    simp
  unfold fmean
  rw [hfil, fsum_map_val]
  cases qs with
  | nil => rfl
  | cons q l => simp

/-- C2 (amended): on every view in which each `played = 0` row also has
`won = 0` (as the invariant `played = won + drawn + lost` guarantees), the
win-percentage derivation never divides by zero or crashes — each such
row's `0/0` is NaN and is excluded from its team's average by the
NaN-skipping mean, so the code's per-team value coincides with the mean
over the team's rows with `played ≠ 0` (NaN, reported as no-data, when the
team has no such rows). -/
theorem c2_win_pct_zero_played (view : Dataset)
    (h : ∀ r ∈ view, r.played = 0 → r.won = 0) (t : String) :
    winPctMean view t = winPctMeanSpec (teamRows view t) := by
  have ht : ∀ r ∈ teamRows view t, r.played = 0 → r.won = 0 :=
    fun r hr => h r (List.mem_filter.mp hr).1
  unfold winPctMean
  rw [← fmean_filter_nan ((teamRows view t).map win_pct)]
  rw [win_pct_filter_eq (teamRows view t) ht]
  have hmm :
      ((teamRows view t).filter (fun r => decide (r.played ≠ 0))).map
          (fun r => Fval.val ((r.won : ℚ) / (r.played : ℚ) * 100))
        = (((teamRows view t).filter (fun r => decide (r.played ≠ 0))).map
            (fun r => (r.won : ℚ) / (r.played : ℚ) * 100)).map Fval.val := by
    rw [List.map_map]
    rfl
  rw [hmm, fmean_map_val]
  unfold winPctMeanSpec meanQ
  cases (teamRows view t).filter (fun r => decide (r.played ≠ 0)) with
  | nil => rfl
  | cons r l => simp

/-- Witness for C2 (amended) at a concrete view holding a `played = 0,
won = 0` row next to a played season of the same team. -/
theorem c2_win_pct_zero_played_witness :
    (∀ r ∈ [rowZeroPlayed, rowA2020], r.played = 0 → r.won = 0) ∧
      winPctMean [rowZeroPlayed, rowA2020] "Arsenal"
        = winPctMeanSpec (teamRows [rowZeroPlayed, rowA2020] "Arsenal") :=
  ⟨by decide, c2_win_pct_zero_played [rowZeroPlayed, rowA2020] (by decide) "Arsenal"⟩

/-- Counterexample to C2 as stated: on a view whose `played = 0` row has
`won = 1`, the code computes `1/0 = +inf`, so the row's contribution is
neither excluded (the exclusion semantics gives NaN here) nor treated as 0
— the team's average is infinite. -/
theorem c2_counterexample :
    winPctMean [rowZeroPlayedWon] "Arsenal" = Fval.pinf ∧
      winPctMeanSpec (teamRows [rowZeroPlayedWon] "Arsenal") = Fval.nan ∧
      Fval.pinf ≠ Fval.nan ∧ Fval.pinf ≠ Fval.val 0 := by decide

/-! ## Tie-breaking in the top-10 rankings (C3) -/

/-- Helper: inserting `a` into `l` preserves a pairwise invariant `Q`
provided `a` relates by `Q` to everything in `l` and everything `a` is
placed after (those `b` with `¬ r a b`) relates back to `a`. -/
theorem pairwise_orderedInsert {α : Type} (r : α → α → Prop) [DecidableRel r]
    (Q : α → α → Prop) (a : α) :
    ∀ l : List α, l.Pairwise Q → (∀ b ∈ l, Q a b) → (∀ b ∈ l, ¬ r a b → Q b a) →
      (List.orderedInsert r a l).Pairwise Q := by
  intro l
  induction l with
  | nil =>
    intro _ _ _
    simp [List.orderedInsert]
  | cons b t ih =>
    intro hpw hQa hQr
    rw [List.orderedInsert]
    rw [List.pairwise_cons] at hpw
    split
    case isTrue hr =>
      rw [List.pairwise_cons]
      refine ⟨hQa, List.pairwise_cons.mpr hpw⟩
    case isFalse hr =>
      rw [List.pairwise_cons]
      constructor
      · intro c hc
        rw [List.mem_orderedInsert] at hc
        rcases hc with rfl | hct
        · exact hQr b (List.mem_cons_self _ _) hr
        · exact hpw.1 c hct
      · exact ih hpw.2 (fun x hx => hQa x (List.mem_cons_of_mem _ hx))
          (fun x hx => hQr x (List.mem_cons_of_mem _ hx))

/-- Helper: stability of insertion sort, phrased as preservation of a
pairwise invariant `Q` that holds backwards wherever the sort key does not
(`¬ r a b → Q b a`); ties (where both `r a b` and `r b a` hold) keep their
input order, so `Q` survives sorting. -/
theorem pairwise_insertionSort_stable {α : Type} (r : α → α → Prop) [DecidableRel r]
    (Q : α → α → Prop) (H : ∀ a b : α, ¬ r a b → Q b a) :
    ∀ l : List α, l.Pairwise Q → (List.insertionSort r l).Pairwise Q := by
  intro l
  induction l with
  | nil =>
    intro _
    simp [List.insertionSort]
  | cons a t ih =>
    intro hpw
    rw [List.insertionSort]
    rw [List.pairwise_cons] at hpw
    apply pairwise_orderedInsert
    · exact ih hpw.2
    · intro b hb
      rw [List.mem_insertionSort] at hb
      exact hpw.1 b hb
    · intro b _ hr
      exact H a b hr

/-- Helper: the group keys are strictly increasing by code-point order. -/
theorem sortedTeams_pairwise (view : Dataset) :
    (sortedTeams view).Pairwise (fun a b => strLe a b = true ∧ a ≠ b) := by
  have hs : (sortedTeams view).Pairwise (fun a b => strLe a b = true) :=
    List.sorted_insertionSort _ _
  have hn : (sortedTeams view).Nodup :=
    (List.perm_insertionSort _ _).nodup_iff.mpr (List.nodup_dedup _)
  exact hs.and hn

/-- Helper: any per-team table built over the sorted group keys has
strictly increasing team names. -/
theorem table_names_pairwise (view : Dataset) (f : String → ℚ) :
    ((sortedTeams view).map (fun t => (t, f t))).Pairwise
      (fun p q : String × ℚ => strLe p.1 q.1 = true ∧ p.1 ≠ q.1) := by
  rw [List.pairwise_map]
  exact sortedTeams_pairwise view

/-- C3 (amended): ties in the top-10 rankings are not broken by first
appearance in the filtered view — `groupby('team')` sorts the group keys
lexicographically before the value sort, discarding view order.  On views
with at most 15 distinct teams, where numpy's default introsort runs its
stable insertion sort and the embedding is exact, two tied teams appear in
ascending name order in `avg_pos` and — since the descending sort of
`avg_pts` is pandas' reversal of the ascending argsort — in descending
name order in `avg_pts`.  (For larger views the code leaves the tie order
unspecified: numpy's introsort is unstable there.) -/
theorem c3_tiebreak_names (view : Dataset) (n : Nat)
    (hsmall : ((view.map Row.team).dedup).length ≤ 15) :
    (avg_pos view n).Pairwise
        (fun p q => p.2 = q.2 → strLe p.1 q.1 = true ∧ p.1 ≠ q.1) ∧
      (avg_pts view n).Pairwise
        (fun p q => p.2 = q.2 → strLe q.1 p.1 = true ∧ q.1 ≠ p.1) := by
  have htab1 : (avg_pos_table view).Pairwise
      (fun p q : String × ℚ => strLe p.1 q.1 = true ∧ p.1 ≠ q.1) := by
    unfold avg_pos_table
    exact table_names_pairwise view _
  have htab2 : (avg_pts_table view).Pairwise
      (fun p q : String × ℚ => strLe p.1 q.1 = true ∧ p.1 ≠ q.1) := by
    unfold avg_pts_table
    exact table_names_pairwise view _
  constructor
  · unfold avg_pos
    apply List.Pairwise.sublist (List.take_sublist n _)
    apply pairwise_insertionSort_stable
    · intro a b hr heq
      exact absurd (le_of_eq heq.symm) hr
    · have himp1 : ∀ p q : String × ℚ, (strLe p.1 q.1 = true ∧ p.1 ≠ q.1) →
          (p.2 = q.2 → strLe p.1 q.1 = true ∧ p.1 ≠ q.1) :=
        fun _ _ hpq _ => hpq
      exact htab1.imp (fun hpq => himp1 _ _ hpq)
  · unfold avg_pts
    apply List.Pairwise.sublist (List.take_sublist n _)
    rw [List.pairwise_reverse]
    apply pairwise_insertionSort_stable
    · intro a b hr heq
      exact absurd (le_of_eq heq) hr
    · have himp2 : ∀ p q : String × ℚ, (strLe p.1 q.1 = true ∧ p.1 ≠ q.1) →
          (q.2 = p.2 → strLe p.1 q.1 = true ∧ p.1 ≠ q.1) :=
        fun _ _ hpq _ => hpq
      exact htab2.imp (fun hpq => himp2 _ _ hpq)

/-- Witness for C3 (amended) at a concrete two-team view, inside the
at-most-15-teams regime where the sort model is numpy's exact behaviour. -/
theorem c3_tiebreak_names_witness :
    (([rowTieB, rowTieA].map Row.team).dedup).length ≤ 15 ∧
      ((avg_pos [rowTieB, rowTieA] 10).Pairwise
          (fun p q => p.2 = q.2 → strLe p.1 q.1 = true ∧ p.1 ≠ q.1) ∧
        (avg_pts [rowTieB, rowTieA] 10).Pairwise
          (fun p q => p.2 = q.2 → strLe q.1 p.1 = true ∧ q.1 ≠ p.1)) :=
  ⟨by decide, c3_tiebreak_names [rowTieB, rowTieA] 10 (by decide)⟩

/-- Counterexample to C3 as stated: with two tied teams, the ranking does
not follow first appearance in the view (both views are two-element, well
inside numpy's stable insertion-sort regime, so the code's behaviour here
is exactly the model's).  In the first view team "B" appears first yet
`avg_pos` ranks "A" first (alphabetical, from the sorted group keys); in
the second view team "A" appears first yet `avg_pts` ranks "B" first
(reverse-alphabetical, from the reversed descending sort). -/
theorem c3_counterexample :
    ([rowTieB, rowTieA].map Row.team = ["B", "A"]) ∧
      avg_pos [rowTieB, rowTieA] 10 = [("A", (2 : ℚ)), ("B", 2)] ∧
      ([rowTieA, rowTieB].map Row.team = ["A", "B"]) ∧
      avg_pts [rowTieA, rowTieB] 10 = [("B", (40 : ℚ)), ("A", 40)] := by
  refine ⟨by decide, ?_, by decide, ?_⟩
  · unfold avg_pos avg_pos_table sortedTeams teamRows meanQ
    simp [rowTieA, rowTieB, List.dedup, List.pwFilter, List.insertionSort,
      List.orderedInsert, strLe, charsLe, List.filter_cons, List.filter_nil]
  · unfold avg_pts avg_pts_table sortedTeams teamRows meanQ
    simp [rowTieA, rowTieB, List.dedup, List.pwFilter, List.insertionSort,
      List.orderedInsert, strLe, charsLe, List.filter_cons, List.filter_nil]

/-! ## Frame effects of the derivations (C4) -/

/-- C4 (amended): the derivations of tab2 are deterministic functions of
the filtered rows and never touch the Dataset or the rows of the filtered
view, but they are not free of frame effects on the view itself: computing
the win-percentage table appends a `win_pct` column to the filtered frame
in place, and the goals-against table then appends `ga_per_game`, so the
view's column list grows while its rows stay intact. -/
theorem c4_frame_effects (vf : ViewFrame)
    (h1 : "win_pct" ∉ vf.cols) (h2 : "ga_per_game" ∉ vf.cols) :
    ((winPctStep vf).2).rows = vf.rows ∧
      ((gaPerGameStep (winPctStep vf).2).2).rows = vf.rows ∧
      ((winPctStep vf).2).cols = vf.cols ++ ["win_pct"] ∧
      ((gaPerGameStep (winPctStep vf).2).2).cols
        = vf.cols ++ ["win_pct", "ga_per_game"] ∧
      (winPctStep vf).1 = win_pct_df vf.rows := by
  refine ⟨rfl, ?_, ?_, ?_, rfl⟩
  · unfold gaPerGameStep winPctStep assignColumn
    rfl
  · unfold winPctStep assignColumn
    simp [h1]
  · unfold gaPerGameStep winPctStep assignColumn
    simp [h1, h2, List.append_assoc]

/-- Witness for C4 (amended) at a freshly filtered concrete frame. -/
theorem c4_frame_effects_witness :
    ("win_pct" ∉ vfSample.cols) ∧ ("ga_per_game" ∉ vfSample.cols) ∧
      (((winPctStep vfSample).2).rows = vfSample.rows ∧
        ((gaPerGameStep (winPctStep vfSample).2).2).rows = vfSample.rows ∧
        ((winPctStep vfSample).2).cols = vfSample.cols ++ ["win_pct"] ∧
        ((gaPerGameStep (winPctStep vfSample).2).2).cols
          = vfSample.cols ++ ["win_pct", "ga_per_game"] ∧
        (winPctStep vfSample).1 = win_pct_df vfSample.rows) :=
  ⟨by decide, by decide, c4_frame_effects vfSample (by decide) (by decide)⟩

/-- Counterexample to C4 as stated: the filtered view's columns are not the
same before and after computing the win-percentage table — the `win_pct`
column has been added in place. -/
theorem c4_counterexample :
    ((winPctStep vfSample).2).cols ≠ vfSample.cols ∧
      ((winPctStep vfSample).2).cols = vfSample.cols ++ ["win_pct"] := by
  constructor
  · decide
  · decide

end Football
